import Mathlib

/-!
Shallow embedding of the gamepass-aggregation service in `src/main.rs`
(donations_api). The service exposes `GET /user/:id/passes`; the handler
`get_passes` first tries `fetch_passes_from_public_games` and, when that
yields no passes, falls back to `fetch_passes_from_catalog`, always
answering `{ ok, userId, count, passes }`.

Upstream HTTP calls are modelled by an explicit environment `Env` mapping
each request to its outcome; an outcome is a transport error or a response
carrying a success flag (the `status().is_success()` view) and an optional
decoded body (`None` models a body that fails to decode to the expected
shape). Field accesses such as `v.get("id").and_then(|v| v.as_u64())` are
modelled as `Option` fields holding the post-decode value: `none` stands
for a field that is missing or does not decode to the requested type.
Besides the pass list, each embedded function also returns the list of
upstream requests it issued, in order, so that statements about which
endpoints get called (and how often) can be made.
-/

namespace DonationsApi

/-- Outcome of an upstream HTTP GET: a transport error, or a response with
a success flag (`status().is_success()`) and an optional decoded body
(`none` = the body failed to decode to the expected shape). -/
inductive HttpOutcome (α : Type) where
  | transportError
  | response (success : Bool) (body : Option α)
  deriving DecidableEq

/-- One entry of the `data` array of the user-games listing: the code reads
only `game.get("id").and_then(as_u64)`. -/
structure GameEntry where
  id : Option Nat
  deriving DecidableEq

/-- Decoded body of `GET /v2/users/{userId}/games`. The code reads only the
`data` array; the upstream body also carries an optional continuation
cursor `nextPageCursor`, which the code never reads. -/
structure GamesBody where
  data : Option (List GameEntry)
  nextPageCursor : Option String
  deriving DecidableEq

/-- One entry of the `data` array of `GET /v2/games/{universeId}/game-passes`:
the code reads `id` (as u64) and `name` (as string, default "GamePass"). -/
structure PassEntry where
  id : Option Nat
  name : Option String
  deriving DecidableEq

/-- Decoded body of the game-passes listing: the code reads only `data`. -/
structure PassesBody where
  data : Option (List PassEntry)
  deriving DecidableEq

/-- Decoded body of `GET /v2/assets/{id}/details`. The code reads
`PriceInRobux` then `Price`, each via `as_i64`; an `Option Int` field is
`none` when the field is missing or not an integer. The upstream record
also reports a creator identifier, which the code never reads; it is kept
in the model so that statements about it can be made. -/
structure DetailBody where
  priceInRobux : Option Int
  price : Option Int
  creatorId : Option Nat
  deriving DecidableEq

/-- One entry of the `data` array of the catalog search: the code reads
`assetType.id` (as u64, default 0), `id` (as u64), `name` (default
"GamePass") and `price` (as i64, default 0). -/
structure CatalogItem where
  assetTypeId : Option Nat
  id : Option Nat
  name : Option String
  price : Option Int
  deriving DecidableEq

/-- Decoded body of the catalog search: the code reads only `data`. -/
structure CatalogBody where
  data : Option (List CatalogItem)
  deriving DecidableEq

/-- The environment of upstream responses for one aggregation call:
one entry per upstream endpoint the service can hit. -/
structure Env where
  /-- `GET /v2/users/{userId}/games?...` with an optional pagination
  cursor (the upstream endpoint accepts one; the code never sends one). -/
  games : Nat → Option String → HttpOutcome GamesBody
  /-- `GET /v2/games/{universeId}/game-passes?...`. -/
  gamePasses : Nat → HttpOutcome PassesBody
  /-- `GET /v2/assets/{passId}/details`. -/
  details : Nat → HttpOutcome DetailBody
  /-- `GET /v1/search/items/details?creatorTargetId={userId}&...`. -/
  catalog : Nat → HttpOutcome CatalogBody

/-- An upstream request issued by the service, for trace statements. -/
inductive Request where
  | gamesList (userId : Nat) (cursor : Option String)
  | gamePassesList (universeId : Nat)
  | assetDetails (passId : Nat)
  | catalogSearch (userId : Nat)
  deriving DecidableEq

/-- `struct Gamepass { id: u64, name: String, price: i32 }`; `price` holds
the mathematical value of the `i32`. -/
structure Gamepass where
  id : Nat
  name : String
  price : Int
  deriving DecidableEq

/-- `struct ApiResponse { ok, user_id, count, passes }`. -/
structure ApiResponse where
  ok : Bool
  user_id : Nat
  count : Nat
  passes : List Gamepass
  deriving DecidableEq

/-- Rust's `as i32` cast on an `i64` value: wrap modulo `2^32` into
`[-2^31, 2^31)`. -/
def toInt32 (n : Int) : Int :=
  let m := n % (2 ^ 32)
  if m < 2 ^ 31 then m else m - 2 ^ 32

/-- `details["PriceInRobux"].as_i64().or_else(|| details["Price"].as_i64()).unwrap_or(0)`. -/
def detailPrice (d : DetailBody) : Int :=
  (d.priceInRobux.orElse fun _ => d.price).getD 0

/-- The per-call accumulator of `fetch_passes_from_public_games`: the
`result` vector, the `seen_ids` set (modelled as a list, membership only),
and the trace of upstream requests issued so far. -/
structure FetchState where
  result : List Gamepass
  seen : List Nat
  reqs : List Request
  deriving DecidableEq

/-- Body of the `for pass in passes_arr` loop of
`fetch_passes_from_public_games`: skip entries without a decodable id,
default the name, dedupe via `seen_ids.insert`, then fetch the asset
details (transport errors and decode failures skip the item; the HTTP
status of this call is not inspected), and keep the pass when the decoded
price is positive, storing it through the `as i32` cast. -/
def processPass (env : Env) (st : FetchState) (p : PassEntry) : FetchState :=
  match p.id with
  | none => st
  | some id =>
    let name := (p.name.getD "GamePass")
    if id ∈ st.seen then st
    else
      let st1 : FetchState :=
        { st with seen := id :: st.seen, reqs := st.reqs ++ [Request.assetDetails id] }
      match env.details id with
      | HttpOutcome.transportError => st1
      | HttpOutcome.response _ none => st1
      | HttpOutcome.response _ (some d) =>
        let price := detailPrice d
        if price ≤ 0 then st1
        else { st1 with result := st1.result ++ [⟨id, name, toInt32 price⟩] }

/-- Body of the `for universe_id in universe_ids` loop: fetch the game's
pass listing; a transport error, non-success status, undecodable body or
missing `data` array skips this game; otherwise process each pass entry. -/
def processUniverse (env : Env) (st : FetchState) (universeId : Nat) : FetchState :=
  let st1 : FetchState := { st with reqs := st.reqs ++ [Request.gamePassesList universeId] }
  match env.gamePasses universeId with
  | HttpOutcome.transportError => st1
  | HttpOutcome.response false _ => st1
  | HttpOutcome.response true none => st1
  | HttpOutcome.response true (some body) =>
    match body.data with
    | none => st1
    | some passes => passes.foldl (processPass env) st1

/-- `fetch_passes_from_public_games(user_id)`: one request to the
user-games listing (no cursor); on transport error, non-success status,
undecodable body or missing `data`, return the empty result; otherwise
collect the decodable game ids and process each game. Returns the pass
list and the request trace. -/
def fetch_passes_from_public_games (env : Env) (user_id : Nat) :
    List Gamepass × List Request :=
  let reqs0 : List Request := [Request.gamesList user_id none]
  match env.games user_id none with
  | HttpOutcome.transportError => ([], reqs0)
  | HttpOutcome.response false _ => ([], reqs0)
  | HttpOutcome.response true none => ([], reqs0)
  | HttpOutcome.response true (some body) =>
    match body.data with
    | none => ([], reqs0)
    | some games =>
      let universe_ids := games.filterMap GameEntry.id
      let st := universe_ids.foldl (processUniverse env) ⟨[], [], reqs0⟩
      (st.result, st.reqs)

/-- Body of the `for item in items` loop of `fetch_passes_from_catalog`:
keep only items whose `assetType.id` decodes to 46 (default 0), with a
decodable `id`, not seen before, and a decoded `price` (default 0) that is
positive; the kept price goes through the `as i32` cast. The `seen`
insertion happens before the price check, as in the code. -/
def processCatalogItem (st : List Gamepass × List Nat) (item : CatalogItem) :
    List Gamepass × List Nat :=
  if item.assetTypeId.getD 0 ≠ 46 then st
  else
    match item.id with
    | none => st
    | some id =>
      if id ∈ st.2 then st
      else
        let name := item.name.getD "GamePass"
        let price := item.price.getD 0
        if price ≤ 0 then (st.1, id :: st.2)
        else (st.1 ++ [⟨id, name, toInt32 price⟩], id :: st.2)

/-- `fetch_passes_from_catalog(user_id)`: one catalog-search request; on
transport error, non-success status, undecodable body or missing `data`,
return the empty result; otherwise fold over the items. Returns the pass
list and the request trace. -/
def fetch_passes_from_catalog (env : Env) (user_id : Nat) :
    List Gamepass × List Request :=
  let reqs0 : List Request := [Request.catalogSearch user_id]
  match env.catalog user_id with
  | HttpOutcome.transportError => ([], reqs0)
  | HttpOutcome.response false _ => ([], reqs0)
  | HttpOutcome.response true none => ([], reqs0)
  | HttpOutcome.response true (some body) =>
    match body.data with
    | none => ([], reqs0)
    | some items => ((items.foldl processCatalogItem ([], [])).1, reqs0)

/-- `get_passes(user_id)`: try the public-games source; if it yields no
passes, fall back to the catalog source; always answer `ok = true` with
`count = passes.len()` and the requested user id. Returns the response and
the full request trace. -/
def get_passes (env : Env) (user_id : Nat) : ApiResponse × List Request :=
  if (fetch_passes_from_public_games env user_id).1.isEmpty then
    (⟨true, user_id, (fetch_passes_from_catalog env user_id).1.length,
        (fetch_passes_from_catalog env user_id).1⟩,
      (fetch_passes_from_public_games env user_id).2 ++
        (fetch_passes_from_catalog env user_id).2)
  else
    (⟨true, user_id, (fetch_passes_from_public_games env user_id).1.length,
        (fetch_passes_from_public_games env user_id).1⟩,
      (fetch_passes_from_public_games env user_id).2)

/-! ### Derived definitions used by the statements -/

/-- Is a request a user-games listing request? -/
def isGamesReq : Request → Bool
  | Request.gamesList _ _ => true
  | _ => false

/-- Is a request a catalog-search request? -/
def isCatalogReq : Request → Bool
  | Request.catalogSearch _ => true
  | _ => false

/-- Requests issued inside the per-game loops of the public-games source:
game-pass listings and asset-detail lookups. -/
def innerReq : Request → Bool
  | Request.gamePassesList _ => true
  | Request.assetDetails _ => true
  | _ => false

/-- Replace the user-games listing responses of an environment. -/
def withGames (env : Env) (g : Nat → Option String → HttpOutcome GamesBody) : Env :=
  { env with games := g }

/-- Replace the game-passes listing responses of an environment. -/
def withGamePasses (env : Env) (g : Nat → HttpOutcome PassesBody) : Env :=
  { env with gamePasses := g }

/-- Replace the asset-detail responses of an environment. -/
def withDetails (env : Env) (f : Nat → HttpOutcome DetailBody) : Env :=
  { env with details := f }

/-- Replace the catalog-search responses of an environment. -/
def withCatalog (env : Env) (f : Nat → HttpOutcome CatalogBody) : Env :=
  { env with catalog := f }

/-- Rewrite the creator id reported by every asset-detail record, leaving
everything else of the environment unchanged. -/
def setDetailCreator (f : Nat → Option Nat) (env : Env) : Env :=
  { env with
    details := fun i =>
      match env.details i with
      | HttpOutcome.transportError => HttpOutcome.transportError
      | HttpOutcome.response s none => HttpOutcome.response s none
      | HttpOutcome.response s (some d) =>
          HttpOutcome.response s (some { d with creatorId := f i }) }

/-- A catalog item that reaches the dedup/price stage: its asset-type
classifier decodes to 46 and its id decodes. -/
def catalogConsidered (item : CatalogItem) : Bool :=
  (item.assetTypeId.getD 0 == 46) && item.id.isSome

/-- A catalog item the catalog source accepts: considered, and its decoded
price (default 0) is positive. -/
def catalogAccepts (item : CatalogItem) : Bool :=
  catalogConsidered item && decide (0 < item.price.getD 0)

/-- The `Gamepass` a catalog item denotes, with its price taken verbatim
(no `i32` cast). -/
def renderCatalogItem (item : CatalogItem) : Gamepass :=
  ⟨item.id.getD 0, item.name.getD "GamePass", item.price.getD 0⟩

/-- Invariant of the public-games accumulator: result ids are distinct and
every accumulated id has been recorded in `seen`. -/
def SourceInv (st : FetchState) : Prop :=
  (st.result.map Gamepass.id).Nodup ∧ ∀ g ∈ st.result, g.id ∈ st.seen

/-- Invariant of the catalog accumulator: result ids are distinct and every
accumulated id has been recorded in the seen list. -/
def CatalogInv (st : List Gamepass × List Nat) : Prop :=
  (st.1.map Gamepass.id).Nodup ∧ ∀ g ∈ st.1, g.id ∈ st.2

/-! ### Concrete environments for counterexamples and witnesses -/

/-- User 5 has one public game (universe 1) holding one pass (id 10, named
"P") whose detail record prices it at `2^31` Robux; the catalog is down. -/
def envC2 : Env :=
  { games := fun _ _ => HttpOutcome.response true (some ⟨some [⟨some 1⟩], none⟩)
    gamePasses := fun _ => HttpOutcome.response true (some ⟨some [⟨some 10, some "P"⟩]⟩)
    details := fun _ => HttpOutcome.response true (some ⟨some (2 ^ 31), none, none⟩)
    catalog := fun _ => HttpOutcome.transportError }

/-- User 5 has one public game (universe 1) holding one pass (id 10, named
"P") whose detail record prices it at 50 and reports creator 999. -/
def envC4 : Env :=
  { games := fun _ _ => HttpOutcome.response true (some ⟨some [⟨some 1⟩], none⟩)
    gamePasses := fun _ => HttpOutcome.response true (some ⟨some [⟨some 10, some "P"⟩]⟩)
    details := fun _ => HttpOutcome.response true (some ⟨some 50, none, some 999⟩)
    catalog := fun _ => HttpOutcome.transportError }

/-- A three-page user-games listing (cursors none → "A" → "B", returning
cursors "A" → "B" → none) with games 1, 2, 3; each game `v` holds one pass
`10 * v` priced at 50. -/
def envC5 : Env :=
  { games := fun _ c =>
      match c with
      | none => HttpOutcome.response true (some ⟨some [⟨some 1⟩], some "A"⟩)
      | some "A" => HttpOutcome.response true (some ⟨some [⟨some 2⟩], some "B"⟩)
      | some "B" => HttpOutcome.response true (some ⟨some [⟨some 3⟩], none⟩)
      | some _ => HttpOutcome.transportError
    gamePasses := fun v =>
      HttpOutcome.response true (some ⟨some [⟨some (10 * v), some "P"⟩]⟩)
    details := fun _ => HttpOutcome.response true (some ⟨some 50, none, none⟩)
    catalog := fun _ => HttpOutcome.transportError }

/-- The catalog search for user 7 answers one gamepass item (asset type 46,
id 20, name "C", price 30), while the public-games source finds pass 10
(named "P", price 50) through universe 1. -/
def envC6 : Env :=
  { games := fun _ _ => HttpOutcome.response true (some ⟨some [⟨some 1⟩], none⟩)
    gamePasses := fun _ => HttpOutcome.response true (some ⟨some [⟨some 10, some "P"⟩]⟩)
    details := fun _ => HttpOutcome.response true (some ⟨some 50, none, none⟩)
    catalog := fun _ =>
      HttpOutcome.response true (some ⟨some [⟨some 46, some 20, some "C", some 30⟩]⟩) }

/-- The two catalog items of the C7 witness environment. -/
def c7items : List CatalogItem :=
  [⟨some 46, some 1, some "A", some 10⟩, ⟨some 46, some 2, some "B", some 20⟩]

/-- The public-games source fails at the games listing; the catalog search
answers the two items of `c7items`. -/
def envC7 : Env :=
  { games := fun _ _ => HttpOutcome.transportError
    gamePasses := fun _ => HttpOutcome.transportError
    details := fun _ => HttpOutcome.transportError
    catalog := fun _ => HttpOutcome.response true (some ⟨some c7items⟩) }

/-- The public-games source fails at the games listing; the catalog search
answers one item with asset type 46, id 20 and price `2^31`. -/
def envC7x : Env :=
  { games := fun _ _ => HttpOutcome.transportError
    gamePasses := fun _ => HttpOutcome.transportError
    details := fun _ => HttpOutcome.transportError
    catalog := fun _ =>
      HttpOutcome.response true (some ⟨some [⟨some 46, some 20, some "C", some (2 ^ 31)⟩]⟩) }

/-- User 5 has one public game (universe 1) holding one pass (id 10, named
"P"); the asset-detail call answers with a NON-success HTTP status but a
decodable body pricing the pass at 50. -/
def envC9 : Env :=
  { games := fun _ _ => HttpOutcome.response true (some ⟨some [⟨some 1⟩], none⟩)
    gamePasses := fun _ => HttpOutcome.response true (some ⟨some [⟨some 10, some "P"⟩]⟩)
    details := fun _ => HttpOutcome.response false (some ⟨some 50, none, none⟩)
    catalog := fun _ => HttpOutcome.transportError }

/-! ### Structural lemmas -/

/-- The catalog source issues exactly one request: the catalog search. -/
theorem fetch_catalog_trace (env : Env) (u : Nat) :
    (fetch_passes_from_catalog env u).2 = [Request.catalogSearch u] := by
  unfold fetch_passes_from_catalog
  rcases env.catalog u with _ | ⟨s, b⟩
  · rfl
  · rcases s with _ | _ <;> rcases b with _ | body
    · rfl
    · rcases body with ⟨_ | items⟩ <;> rfl
    · rfl
    · rcases body with ⟨_ | items⟩ <;> rfl

/-- The passes of the response: the public-games result, or the catalog
result when the former is empty. -/
theorem get_passes_passes (env : Env) (u : Nat) :
    (get_passes env u).1.passes =
      if (fetch_passes_from_public_games env u).1.isEmpty then
        (fetch_passes_from_catalog env u).1
      else (fetch_passes_from_public_games env u).1 := by
  unfold get_passes
  split <;> rfl

/-- The request trace of the handler: the public-games trace, followed by
the single catalog request exactly when the public-games result is empty. -/
theorem get_passes_trace (env : Env) (u : Nat) :
    (get_passes env u).2 =
      (fetch_passes_from_public_games env u).2 ++
        (if (fetch_passes_from_public_games env u).1.isEmpty then
          [Request.catalogSearch u] else []) := by
  unfold get_passes
  split
  · rw [fetch_catalog_trace]
  · simp

/-- The handler always answers `ok = true`, echoes the user id, and sets
`count` to the length of the pass list. -/
theorem get_passes_fields (env : Env) (u : Nat) :
    (get_passes env u).1.ok = true ∧ (get_passes env u).1.user_id = u ∧
      (get_passes env u).1.count = (get_passes env u).1.passes.length := by
  unfold get_passes
  split <;> exact ⟨rfl, rfl, rfl⟩

/-- Case analysis on one step of the pass loop: either the state is
untouched, or a fresh id is recorded in `seen`, one asset-detail request is
appended, and the result either stays or grows by one pass with that id. -/
theorem processPass_shape (env : Env) (st : FetchState) (p : PassEntry) :
    processPass env st p = st ∨
      ∃ i, i ∉ st.seen ∧ (processPass env st p).seen = i :: st.seen ∧
        (processPass env st p).reqs = st.reqs ++ [Request.assetDetails i] ∧
        ((processPass env st p).result = st.result ∨
          ∃ nm pr, (processPass env st p).result = st.result ++ [⟨i, nm, pr⟩]) := by
  rcases hp : p.id with _ | i
  · left
    simp [processPass, hp]
  · by_cases hmem : i ∈ st.seen
    · left
      simp [processPass, hp, hmem]
    · right
      refine ⟨i, hmem, ?_⟩
      rcases hd : env.details i with _ | ⟨s, _ | d⟩
      · simp [processPass, hp, hmem, hd]
      · simp [processPass, hp, hmem, hd]
      · by_cases hpr : detailPrice d ≤ 0
        · simp [processPass, hp, hmem, hd, hpr]
        · simp [processPass, hp, hmem, hd, hpr]

/-- One step of the pass loop preserves the accumulator invariant. -/
theorem sourceInv_processPass (env : Env) (p : PassEntry) {st : FetchState}
    (h : SourceInv st) : SourceInv (processPass env st p) := by
  obtain ⟨h1, h2⟩ := h
  rcases processPass_shape env st p with heq | ⟨i, hi, hseen, -, hres | ⟨nm, pr, hres⟩⟩
  · rw [heq]; exact ⟨h1, h2⟩
  · rw [SourceInv, hres, hseen]
    exact ⟨h1, fun g hg => List.mem_cons_of_mem _ (h2 g hg)⟩
  · rw [SourceInv, hres, hseen]
    constructor
    · rw [List.map_append, List.nodup_append]
      refine ⟨h1, List.nodup_singleton _, ?_⟩
      intro x hx hx1
      simp only [List.map_cons, List.map_nil, List.mem_singleton] at hx1
      subst hx1
      obtain ⟨g, hg, hgid⟩ := List.mem_map.mp hx
      exact hi (hgid ▸ h2 g hg)
    · intro g hg
      rcases List.mem_append.mp hg with hg | hg
      · exact List.mem_cons_of_mem _ (h2 g hg)
      · simp only [List.mem_singleton] at hg
        subst hg
        exact List.mem_cons_self _ _

/-- Folding the pass loop preserves the accumulator invariant. -/
theorem sourceInv_foldl_processPass (env : Env) (l : List PassEntry) :
    ∀ st : FetchState, SourceInv st → SourceInv (l.foldl (processPass env) st) := by
  induction l with
  | nil => intro st h; exact h
  | cons p rest ih => intro st h; exact ih _ (sourceInv_processPass env p h)

/-- One step of the game loop preserves the accumulator invariant. -/
theorem sourceInv_processUniverse (env : Env) (v : Nat) {st : FetchState}
    (h : SourceInv st) : SourceInv (processUniverse env st v) := by
  unfold processUniverse
  have h1 : SourceInv { st with reqs := st.reqs ++ [Request.gamePassesList v] } := h
  rcases env.gamePasses v with _ | ⟨s, b⟩
  · exact h1
  · rcases s with _ | _
    · rcases b with _ | body
      · exact h1
      · exact h1
    · rcases b with _ | body
      · exact h1
      · rcases body with ⟨_ | passes⟩
        · exact h1
        · exact sourceInv_foldl_processPass env passes _ h1

/-- Folding the game loop preserves the accumulator invariant. -/
theorem sourceInv_foldl_processUniverse (env : Env) (l : List Nat) :
    ∀ st : FetchState, SourceInv st → SourceInv (l.foldl (processUniverse env) st) := by
  induction l with
  | nil => intro st h; exact h
  | cons v rest ih => intro st h; exact ih _ (sourceInv_processUniverse env v h)

/-- The public-games source produces pairwise distinct pass ids. -/
theorem nodup_fetch_public (env : Env) (u : Nat) :
    ((fetch_passes_from_public_games env u).1.map Gamepass.id).Nodup := by
  unfold fetch_passes_from_public_games
  rcases env.games u none with _ | ⟨s, b⟩
  · exact List.nodup_nil
  · rcases s with _ | _
    · rcases b with _ | body
      · exact List.nodup_nil
      · exact List.nodup_nil
    · rcases b with _ | body
      · exact List.nodup_nil
      · rcases body with ⟨_ | games, cur⟩
        · exact List.nodup_nil
        · exact (sourceInv_foldl_processUniverse env (games.filterMap GameEntry.id)
            ⟨[], [], [Request.gamesList u none]⟩ ⟨List.nodup_nil, by simp⟩).1

/-- One step of the pass loop only appends inner requests to the trace. -/
theorem processPass_reqs (env : Env) (st : FetchState) (p : PassEntry) :
    ∃ l, (processPass env st p).reqs = st.reqs ++ l ∧ ∀ r ∈ l, innerReq r = true := by
  rcases processPass_shape env st p with heq | ⟨i, -, -, hreqs, -⟩
  · exact ⟨[], by simp [heq], by simp⟩
  · refine ⟨[Request.assetDetails i], hreqs, ?_⟩
    intro r hr
    simp only [List.mem_singleton] at hr
    subst hr
    rfl

/-- One step of the game loop only appends inner requests to the trace. -/
theorem processUniverse_reqs (env : Env) (st : FetchState) (v : Nat) :
    ∃ l, (processUniverse env st v).reqs = st.reqs ++ l ∧ ∀ r ∈ l, innerReq r = true := by
  have hstep : ∀ pl : List PassEntry, ∀ st1 : FetchState,
      ∃ l, (pl.foldl (processPass env) st1).reqs = st1.reqs ++ l ∧
        ∀ r ∈ l, innerReq r = true := by
    intro pl
    induction pl with
    | nil => exact fun st1 => ⟨[], by simp, by simp⟩
    | cons p rest ih =>
      intro st1
      obtain ⟨l1, h1, h1r⟩ := processPass_reqs env st1 p
      obtain ⟨l2, h2, h2r⟩ := ih (processPass env st1 p)
      refine ⟨l1 ++ l2, ?_, ?_⟩
      · simp only [List.foldl_cons, h2, h1, List.append_assoc]
      · intro r hr
        rcases List.mem_append.mp hr with hr | hr
        · exact h1r r hr
        · exact h2r r hr
  unfold processUniverse
  have hbase : ∀ r ∈ [Request.gamePassesList v], innerReq r = true := by
    intro r hr
    simp only [List.mem_singleton] at hr
    subst hr
    rfl
  rcases env.gamePasses v with _ | ⟨s, b⟩
  · exact ⟨[Request.gamePassesList v], rfl, hbase⟩
  · rcases s with _ | _
    · rcases b with _ | body
      · exact ⟨[Request.gamePassesList v], rfl, hbase⟩
      · exact ⟨[Request.gamePassesList v], rfl, hbase⟩
    · rcases b with _ | body
      · exact ⟨[Request.gamePassesList v], rfl, hbase⟩
      · rcases body with ⟨_ | passes⟩
        · exact ⟨[Request.gamePassesList v], rfl, hbase⟩
        · obtain ⟨l, hl, hlr⟩ :=
            hstep passes { st with reqs := st.reqs ++ [Request.gamePassesList v] }
          refine ⟨Request.gamePassesList v :: l, ?_, ?_⟩
          · rw [hl]
            simp
          · intro r hr
            rcases List.mem_cons.mp hr with hr | hr
            · subst hr; rfl
            · exact hlr r hr

/-- The public-games trace starts with the single cursor-less user-games
request and continues with inner requests only. -/
theorem fetch_public_trace (env : Env) (u : Nat) :
    ∃ l, (fetch_passes_from_public_games env u).2 = Request.gamesList u none :: l ∧
      ∀ r ∈ l, innerReq r = true := by
  have hfold : ∀ ids : List Nat, ∀ st : FetchState,
      ∃ l, (ids.foldl (processUniverse env) st).reqs = st.reqs ++ l ∧
        ∀ r ∈ l, innerReq r = true := by
    intro ids
    induction ids with
    | nil => exact fun st => ⟨[], by simp, by simp⟩
    | cons v rest ih =>
      intro st
      obtain ⟨l1, h1, h1r⟩ := processUniverse_reqs env st v
      obtain ⟨l2, h2, h2r⟩ := ih (processUniverse env st v)
      refine ⟨l1 ++ l2, ?_, ?_⟩
      · simp only [List.foldl_cons, h2, h1, List.append_assoc]
      · intro r hr
        rcases List.mem_append.mp hr with hr | hr
        · exact h1r r hr
        · exact h2r r hr
  unfold fetch_passes_from_public_games
  rcases env.games u none with _ | ⟨s, b⟩
  · exact ⟨[], rfl, by simp⟩
  · rcases s with _ | _
    · rcases b with _ | body
      · exact ⟨[], rfl, by simp⟩
      · exact ⟨[], rfl, by simp⟩
    · rcases b with _ | body
      · exact ⟨[], rfl, by simp⟩
      · rcases body with ⟨_ | games, cur⟩
        · exact ⟨[], rfl, by simp⟩
        · obtain ⟨l, hl, hlr⟩ := hfold (games.filterMap GameEntry.id)
            ⟨[], [], [Request.gamesList u none]⟩
          exact ⟨l, by simpa using hl, hlr⟩

/-- An inner request is neither a games-listing nor a catalog request. -/
theorem innerReq_not_outer {r : Request} (h : innerReq r = true) :
    isGamesReq r = false ∧ isCatalogReq r = false := by
  cases r <;> simp_all [innerReq, isGamesReq, isCatalogReq]

/-- One step of the catalog loop preserves the catalog invariant. -/
theorem catalogInv_step (item : CatalogItem) {st : List Gamepass × List Nat}
    (h : CatalogInv st) : CatalogInv (processCatalogItem st item) := by
  obtain ⟨h1, h2⟩ := h
  unfold processCatalogItem
  split
  · exact ⟨h1, h2⟩
  · rcases hid : item.id with _ | i
    · exact ⟨h1, h2⟩
    · by_cases hmem : i ∈ st.2
      · simp only [hmem, if_true]
        exact ⟨h1, h2⟩
      · simp only [hmem, if_false]
        split
        · exact ⟨h1, fun g hg => List.mem_cons_of_mem _ (h2 g hg)⟩
        · constructor
          · rw [List.map_append, List.nodup_append]
            refine ⟨h1, List.nodup_singleton _, ?_⟩
            intro x hx hx1
            simp only [List.map_cons, List.map_nil, List.mem_singleton] at hx1
            subst hx1
            obtain ⟨g, hg, hgid⟩ := List.mem_map.mp hx
            exact hmem (hgid ▸ h2 g hg)
          · intro g hg
            rcases List.mem_append.mp hg with hg | hg
            · exact List.mem_cons_of_mem _ (h2 g hg)
            · simp only [List.mem_singleton] at hg
              subst hg
              exact List.mem_cons_self _ _

/-- The catalog source produces pairwise distinct pass ids. -/
theorem nodup_fetch_catalog (env : Env) (u : Nat) :
    ((fetch_passes_from_catalog env u).1.map Gamepass.id).Nodup := by
  have hfold : ∀ items : List CatalogItem, ∀ st : List Gamepass × List Nat,
      CatalogInv st → CatalogInv (items.foldl processCatalogItem st) := by
    intro items
    induction items with
    | nil => exact fun st h => h
    | cons item rest ih => exact fun st h => ih _ (catalogInv_step item h)
  unfold fetch_passes_from_catalog
  rcases env.catalog u with _ | ⟨s, b⟩
  · exact List.nodup_nil
  · rcases s with _ | _
    · rcases b with _ | body
      · exact List.nodup_nil
      · exact List.nodup_nil
    · rcases b with _ | body
      · exact List.nodup_nil
      · rcases body with ⟨_ | items⟩
        · exact List.nodup_nil
        · exact (hfold items ([], []) ⟨List.nodup_nil, by simp⟩).1

/-- The `as i32` cast is the identity on values of `[0, 2^31)`. -/
theorem toInt32_eq_self {n : Int} (h0 : 0 ≤ n) (h : n < 2 ^ 31) : toInt32 n = n := by
  have hm : n % 2 ^ 32 = n := Int.emod_eq_of_lt h0 (by omega)
  simp only [toInt32, hm]
  rw [if_pos h]

/-- Characterization of the catalog fold: when the considered items' ids
avoid the seen set and are pairwise distinct, and every accepted price fits
in `i32`, the fold appends exactly the rendering of the accepted items. -/
theorem catalog_foldl_accepts (items : List CatalogItem) :
    ∀ (res : List Gamepass) (seen : List Nat),
      (∀ item ∈ items, catalogConsidered item = true → item.id.getD 0 ∉ seen) →
      ((items.filter catalogConsidered).filterMap CatalogItem.id).Nodup →
      (∀ item ∈ items, catalogAccepts item = true → item.price.getD 0 < 2 ^ 31) →
      (items.foldl processCatalogItem (res, seen)).1
        = res ++ (items.filter catalogAccepts).map renderCatalogItem := by
  induction items with
  | nil =>
    intro res seen _ _ _
    simp
  | cons item rest ih =>
    intro res seen hseen hnodup hbound
    by_cases hc : catalogConsidered item = true
    · have h46 : item.assetTypeId.getD 0 = 46 := by
        have h := hc
        rw [catalogConsidered, Bool.and_eq_true, beq_iff_eq] at h
        exact h.1
      obtain ⟨i, hid⟩ : ∃ i, item.id = some i := by
        have h := hc
        rw [catalogConsidered, Bool.and_eq_true] at h
        exact Option.isSome_iff_exists.mp h.2
      have hnotseen : i ∉ seen := by
        have h := hseen item (List.mem_cons_self _ _) hc
        simpa [hid] using h
      have hfmap : ((item :: rest).filter catalogConsidered).filterMap CatalogItem.id
          = i :: (rest.filter catalogConsidered).filterMap CatalogItem.id := by
        rw [List.filter_cons_of_pos hc]
        simp [List.filterMap_cons, hid]
      rw [hfmap] at hnodup
      have hnd1 : i ∉ (rest.filter catalogConsidered).filterMap CatalogItem.id :=
        (List.nodup_cons.mp hnodup).1
      have hnd2 := (List.nodup_cons.mp hnodup).2
      have hseen2 : ∀ it ∈ rest, catalogConsidered it = true →
          it.id.getD 0 ∉ (i :: seen) := by
        intro it hit hcon hmem
        rcases List.mem_cons.mp hmem with hm | hm
        · apply hnd1
          rw [← hm]
          obtain ⟨j, hj⟩ : ∃ j, it.id = some j := by
            have h := hcon
            rw [catalogConsidered, Bool.and_eq_true] at h
            exact Option.isSome_iff_exists.mp h.2
          exact List.mem_filterMap.mpr
            ⟨it, List.mem_filter.mpr ⟨hit, hcon⟩, by simp [hj]⟩
        · exact hseen it (List.mem_cons_of_mem _ hit) hcon hm
      have hbound2 : ∀ it ∈ rest, catalogAccepts it = true → it.price.getD 0 < 2 ^ 31 :=
        fun it hit h => hbound it (List.mem_cons_of_mem _ hit) h
      by_cases hpos : 0 < item.price.getD 0
      · have hacc : catalogAccepts item = true := by
          rw [catalogAccepts, Bool.and_eq_true]
          exact ⟨hc, decide_eq_true hpos⟩
        have hstep : processCatalogItem (res, seen) item
            = (res ++ [⟨i, item.name.getD "GamePass", toInt32 (item.price.getD 0)⟩],
                i :: seen) := by
          simp [processCatalogItem, h46, hid, hnotseen, not_le.mpr hpos]
        have hcast : toInt32 (item.price.getD 0) = item.price.getD 0 :=
          toInt32_eq_self (le_of_lt hpos) (hbound item (List.mem_cons_self _ _) hacc)
        rw [List.foldl_cons, hstep, ih _ _ hseen2 hnd2 hbound2,
          List.filter_cons_of_pos hacc]
        simp [renderCatalogItem, hid, hcast]
      · have hnacc : ¬catalogAccepts item = true := by
          rw [catalogAccepts, Bool.and_eq_true]
          intro h
          exact hpos (of_decide_eq_true h.2)
        have hstep : processCatalogItem (res, seen) item = (res, i :: seen) := by
          simp [processCatalogItem, h46, hid, hnotseen, not_lt.mp hpos]
        rw [List.foldl_cons, hstep, ih _ _ hseen2 hnd2 hbound2,
          List.filter_cons_of_neg hnacc]
    · have hnacc : ¬catalogAccepts item = true := by
        rw [catalogAccepts, Bool.and_eq_true]
        intro h
        exact hc h.1
      have hstep : processCatalogItem (res, seen) item = (res, seen) := by
        by_cases h46 : item.assetTypeId.getD 0 = 46
        · have hidn : item.id = none := by
            cases hI : item.id with
            | none => rfl
            | some j =>
              exfalso
              apply hc
              rw [catalogConsidered, Bool.and_eq_true, beq_iff_eq]
              exact ⟨h46, by simp [hI]⟩
          simp [processCatalogItem, h46, hidn]
        · simp [processCatalogItem, h46]
      have hseen2 : ∀ it ∈ rest, catalogConsidered it = true → it.id.getD 0 ∉ seen :=
        fun it hit hcon => hseen it (List.mem_cons_of_mem _ hit) hcon
      have hnd2 : ((rest.filter catalogConsidered).filterMap CatalogItem.id).Nodup := by
        rwa [List.filter_cons_of_neg hc] at hnodup
      have hbound2 : ∀ it ∈ rest, catalogAccepts it = true → it.price.getD 0 < 2 ^ 31 :=
        fun it hit h => hbound it (List.mem_cons_of_mem _ hit) h
      rw [List.foldl_cons, hstep, ih _ _ hseen2 hnd2 hbound2,
        List.filter_cons_of_neg hnacc]

/-! ### Claim theorems -/

/-- C1: for every userId, `get_passes` tries the sources in order and stops
at the first source that yields a non-empty result (the catalog request is
issued exactly when the public-games source came back empty); if all
sources yield empty or fail, the result is the empty catalog result and the
response is still marked `ok` — upstream failures are never surfaced as
request failures. -/
theorem c1_fallback_policy (env : Env) (u : Nat) :
    (get_passes env u).1.ok = true ∧
    (get_passes env u).1.passes =
      (if (fetch_passes_from_public_games env u).1.isEmpty then
        (fetch_passes_from_catalog env u).1
      else (fetch_passes_from_public_games env u).1) ∧
    (get_passes env u).2 =
      (fetch_passes_from_public_games env u).2 ++
        (if (fetch_passes_from_public_games env u).1.isEmpty then
          [Request.catalogSearch u] else []) :=
  ⟨(get_passes_fields env u).1, get_passes_passes env u, get_passes_trace env u⟩

/-- C2 (code bug): a pass priced `2^31` by its detail record passes the
positive-price check on the decoded 64-bit value, but the stored `i32`
price wraps to `-2^31`, so the final result contains an entry with a
non-positive price, against the stated invariant (and against the code's
own log line claiming all kept passes have price > 0). -/
theorem c2_price_wraps_negative :
    envC2.details 10 = HttpOutcome.response true (some ⟨some (2 ^ 31), none, none⟩) ∧
    (0 : Int) < 2 ^ 31 ∧
    (get_passes envC2 5).1.passes = [⟨10, "P", -(2 ^ 31)⟩] ∧
    ¬ ∀ g ∈ (get_passes envC2 5).1.passes, 0 < g.price := by
  decide

/-- C3: for every userId and every environment of upstream responses, the
result list contains no two entries with the same id. -/
theorem c3_distinct_ids (env : Env) (u : Nat) :
    ((get_passes env u).1.passes.map Gamepass.id).Nodup := by
  rw [get_passes_passes]
  split
  · exact nodup_fetch_catalog env u
  · exact nodup_fetch_public env u

/-- C4 counterexample: the detail record of pass 10 reports creator 999,
the request is for user 5, 999 ≠ 5, and yet pass 10 appears in the result:
the per-game enumeration source does not filter on the reported creator. -/
theorem c4_creator_mismatch_included :
    envC4.details 10 = HttpOutcome.response true (some ⟨some 50, none, some 999⟩) ∧
    (999 : Nat) ≠ 5 ∧
    (get_passes envC4 5).1.passes = [⟨10, "P", 50⟩] := by
  decide

/-- C4 (amended): the code never reads the creator id of a detail record;
rewriting the creator id reported by every detail record leaves the
response (and the request trace) unchanged. -/
theorem c4_amended_creator_ignored (env : Env) (f : Nat → Option Nat) (u : Nat) :
    get_passes (setDetailCreator f env) u = get_passes env u := by
  have hpp : processPass (setDetailCreator f env) = processPass env := by
    funext st p
    rcases hp : p.id with _ | i
    · simp [processPass, hp]
    · by_cases hmem : i ∈ st.seen
      · simp [processPass, hp, hmem]
      · have hdet : (setDetailCreator f env).details i =
            match env.details i with
            | HttpOutcome.transportError => HttpOutcome.transportError
            | HttpOutcome.response s none => HttpOutcome.response s none
            | HttpOutcome.response s (some d) =>
                HttpOutcome.response s (some { d with creatorId := f i }) := rfl
        rcases hd : env.details i with _ | ⟨s, _ | d⟩
        · simp [processPass, hp, hmem, hdet, hd]
        · simp [processPass, hp, hmem, hdet, hd]
        · have hpr : detailPrice { d with creatorId := f i } = detailPrice d := rfl
          simp [processPass, hp, hmem, hdet, hd, hpr]
  have hpu : processUniverse (setDetailCreator f env) = processUniverse env := by
    funext st v
    unfold processUniverse
    rw [hpp]
    rfl
  have hfp : fetch_passes_from_public_games (setDetailCreator f env) u
      = fetch_passes_from_public_games env u := by
    unfold fetch_passes_from_public_games
    rw [hpu]
    rfl
  have hfc : fetch_passes_from_catalog (setDetailCreator f env) u
      = fetch_passes_from_catalog env u := rfl
  unfold get_passes
  rw [hfp, hfc]

/-- C5 counterexample: in a three-page games listing (cursors none → "A" →
"B" with games 1, 2, 3), the source issues exactly ONE games-list request
(not 3) and the result only reflects the first page's game. -/
theorem c5_single_page_requested :
    envC5.games 7 none = HttpOutcome.response true (some ⟨some [⟨some 1⟩], some "A"⟩) ∧
    envC5.games 7 (some "A") = HttpOutcome.response true (some ⟨some [⟨some 2⟩], some "B"⟩) ∧
    envC5.games 7 (some "B") = HttpOutcome.response true (some ⟨some [⟨some 3⟩], none⟩) ∧
    ((get_passes envC5 7).2.filter isGamesReq).length = 1 ∧
    (get_passes envC5 7).1.passes = [⟨10, "P", 50⟩] := by
  decide

/-- C5 (amended): the public-games source issues exactly one cursor-less
user-games request and ignores continuation cursors entirely: replacing the
pages behind every cursor leaves its output unchanged. -/
theorem c5_amended_no_pagination (env : Env) (u : Nat)
    (g : Nat → Option String → HttpOutcome GamesBody) :
    (fetch_passes_from_public_games env u).2.filter isGamesReq
        = [Request.gamesList u none] ∧
    fetch_passes_from_public_games
        (withGames env fun v c =>
          match c with
          | none => env.games v none
          | some cur => g v (some cur)) u
      = fetch_passes_from_public_games env u := by
  constructor
  · obtain ⟨l, hl, hlr⟩ := fetch_public_trace env u
    rw [hl]
    have h2 : l.filter isGamesReq = [] := by
      rw [List.filter_eq_nil_iff]
      intro r hr
      rw [(innerReq_not_outer (hlr r hr)).1]
      exact Bool.false_ne_true
    simp [List.filter_cons, h2]
    rfl
  · rfl

/-- C6 counterexample: the first upstream request is the user-games
listing, the catalog search is never issued, and even though the catalog
source would have yielded a pass (id 20), the result is the public-games
pass (id 10): the catalog source is not tried first. -/
theorem c6_public_games_first :
    (get_passes envC6 7).2.head? = some (Request.gamesList 7 none) ∧
    Request.catalogSearch 7 ∉ (get_passes envC6 7).2 ∧
    (fetch_passes_from_catalog envC6 7).1 = [⟨20, "C", 30⟩] ∧
    (get_passes envC6 7).1.passes = [⟨10, "P", 50⟩] := by
  decide

/-- C6 (amended): the sources are attempted with the per-game enumeration
source first (the first request of every trace is the cursor-less
user-games listing) and the catalog search second (its request is issued
exactly when the first source produced nothing); no third source exists. -/
theorem c6_amended_source_order (env : Env) (u : Nat) :
    (get_passes env u).2.head? = some (Request.gamesList u none) ∧
    (Request.catalogSearch u ∈ (get_passes env u).2 ↔
      (fetch_passes_from_public_games env u).1 = []) := by
  obtain ⟨l, hl, hlr⟩ := fetch_public_trace env u
  have htr := get_passes_trace env u
  have hnot : Request.catalogSearch u ∉ l := by
    intro hmem
    have h := (innerReq_not_outer (hlr _ hmem)).2
    simp [isCatalogReq] at h
  constructor
  · rw [htr, hl]
    rfl
  · rw [htr, hl]
    constructor
    · intro hmem
      rcases List.mem_append.mp hmem with hm | hm
      · rcases List.mem_cons.mp hm with hm | hm
        · exact absurd hm (by simp)
        · exact absurd hm hnot
      · by_cases hemp : (fetch_passes_from_public_games env u).1.isEmpty
        · exact List.isEmpty_iff.mp hemp
        · simp [hemp] at hm
    · intro hemp
      have h : (fetch_passes_from_public_games env u).1.isEmpty = true := by
        simp [hemp]
      simp [h]

/-- C9 counterexample: the asset-detail call for pass 10 returns a
NON-success status with a decodable body pricing it at 50; the item is not
skipped — it appears in the result, because the code never checks the
detail call's status. -/
theorem c9_detail_status_ignored :
    envC9.details 10 = HttpOutcome.response false (some ⟨some 50, none, none⟩) ∧
    (get_passes envC9 5).1.passes = [⟨10, "P", 50⟩] := by
  decide

/-- C10: in every response, `count` equals the length of `passes` and
`userId` echoes the request's user id. -/
theorem c10_count_and_user (env : Env) (u : Nat) :
    (get_passes env u).1.count = (get_passes env u).1.passes.length ∧
      (get_passes env u).1.user_id = u :=
  ⟨(get_passes_fields env u).2.2, (get_passes_fields env u).2.1⟩

/-- C7 counterexample: the catalog returns one item with asset-type 46 and
positive price `2^31`, the public-games source yields nothing, yet the
result does not equal that item: its stored `i32` price wraps. -/
theorem c7_price_cast_mismatch :
    envC7x.catalog 7 = HttpOutcome.response true
      (some ⟨some [⟨some 46, some 20, some "C", some (2 ^ 31)⟩]⟩) ∧
    catalogAccepts ⟨some 46, some 20, some "C", some (2 ^ 31)⟩ = true ∧
    (fetch_passes_from_public_games envC7x 7).1 = [] ∧
    (get_passes envC7x 7).1.passes
      ≠ [renderCatalogItem ⟨some 46, some 20, some "C", some (2 ^ 31)⟩] := by
  decide

/-- C7 (amended): when the public-games source yields nothing and the
catalog endpoint returns items whose considered ids are pairwise distinct
(the upstream assigns unique ids) and whose accepted prices fit in `i32`,
the result equals exactly the items with asset-type 46 and positive price,
in order. -/
theorem c7_catalog_filter (env : Env) (u : Nat) (items : List CatalogItem)
    (hpub : (fetch_passes_from_public_games env u).1 = [])
    (hcat : env.catalog u = HttpOutcome.response true (some ⟨some items⟩))
    (hnodup : ((items.filter catalogConsidered).filterMap CatalogItem.id).Nodup)
    (hbound : ∀ item ∈ items, catalogAccepts item = true → item.price.getD 0 < 2 ^ 31) :
    (get_passes env u).1.passes = (items.filter catalogAccepts).map renderCatalogItem := by
  rw [get_passes_passes, hpub]
  simp only [List.isEmpty_nil, if_true]
  unfold fetch_passes_from_catalog
  rw [hcat]
  exact catalog_foldl_accepts items [] [] (by simp) hnodup hbound

/-- Witness for C7: a concrete failing public-games source with a two-item
catalog answer, where every hypothesis of `c7_catalog_filter` holds. -/
theorem c7_catalog_filter_witness :
    (fetch_passes_from_public_games envC7 3).1 = [] ∧
    envC7.catalog 3 = HttpOutcome.response true (some ⟨some c7items⟩) ∧
    ((c7items.filter catalogConsidered).filterMap CatalogItem.id).Nodup ∧
    (∀ item ∈ c7items, catalogAccepts item = true → item.price.getD 0 < 2 ^ 31) ∧
    (get_passes envC7 3).1.passes = (c7items.filter catalogAccepts).map renderCatalogItem :=
  ⟨by decide, rfl, by decide, by decide,
    c7_catalog_filter envC7 3 c7items (by decide) rfl (by decide) (by decide)⟩

/-- C8: the detail price is `PriceInRobux` when that field decodes to an
integer, otherwise `Price` when that one does; when neither decodes the
item is treated as price 0 and the pass loop leaves the result unchanged
(the item is excluded). -/
theorem c8_detail_price_fields (n m : Int) (mo : Option Int) (c1 c2 c3 : Option Nat)
    (env : Env) (st : FetchState) (i : Nat) (nm : Option String) (s : Bool) :
    detailPrice ⟨some n, mo, c1⟩ = n ∧
    detailPrice ⟨none, some m, c2⟩ = m ∧
    detailPrice ⟨none, none, c3⟩ = 0 ∧
    (processPass (withDetails env fun _ => HttpOutcome.response s (some ⟨none, none, c3⟩))
        st ⟨some i, nm⟩).result = st.result := by
  refine ⟨rfl, rfl, rfl, ?_⟩
  by_cases hmem : i ∈ st.seen
  · simp [processPass, hmem]
  · simp [processPass, hmem, withDetails, detailPrice]

/-- C9 (amended): the response is always marked ok; a failure of the games
listing or of the catalog call (transport error, non-success status, or
undecodable body) empties that source's result; a failing game-passes call
or asset-detail call only skips that game or item, leaving the accumulated
result unchanged — but the asset-detail call's HTTP status is never
inspected (see the counterexample), only its transport and decode stages
are. -/
theorem c9_amended_error_containment (env : Env) (u v : Nat) (st : FetchState)
    (p : PassEntry) (s : Bool) (gb : Option GamesBody) (pb : Option PassesBody)
    (cb : Option CatalogBody) :
    (get_passes env u).1.ok = true ∧
    (fetch_passes_from_public_games
      (withGames env fun _ _ => HttpOutcome.transportError) u).1 = [] ∧
    (fetch_passes_from_public_games
      (withGames env fun _ _ => HttpOutcome.response false gb) u).1 = [] ∧
    (fetch_passes_from_public_games
      (withGames env fun _ _ => HttpOutcome.response true none) u).1 = [] ∧
    (fetch_passes_from_catalog
      (withCatalog env fun _ => HttpOutcome.transportError) u).1 = [] ∧
    (fetch_passes_from_catalog
      (withCatalog env fun _ => HttpOutcome.response false cb) u).1 = [] ∧
    (fetch_passes_from_catalog
      (withCatalog env fun _ => HttpOutcome.response true none) u).1 = [] ∧
    (processUniverse
      (withGamePasses env fun _ => HttpOutcome.transportError) st v).result = st.result ∧
    (processUniverse
      (withGamePasses env fun _ => HttpOutcome.response false pb) st v).result = st.result ∧
    (processUniverse
      (withGamePasses env fun _ => HttpOutcome.response true none) st v).result = st.result ∧
    (processPass
      (withDetails env fun _ => HttpOutcome.transportError) st p).result = st.result ∧
    (processPass
      (withDetails env fun _ => HttpOutcome.response s none) st p).result = st.result := by
  refine ⟨(get_passes_fields env u).1, rfl, rfl, rfl, rfl, rfl, rfl, rfl, rfl, rfl, ?_, ?_⟩
  · rcases hp : p.id with _ | i
    · simp [processPass, hp]
    · by_cases hmem : i ∈ st.seen <;> simp [processPass, hp, hmem, withDetails]
  · rcases hp : p.id with _ | i
    · simp [processPass, hp]
    · by_cases hmem : i ∈ st.seen <;> simp [processPass, hp, hmem, withDetails]

end DonationsApi
